import Mathlib

/-!
Verification development for the Dilial-API credential store and
authentication components (`components/accounts.js`, `components/auth.js`).

The JavaScript module state (`accounts`, `activeAccount`, the persisted
encrypted blob) is embedded as an explicit `StoreState` record passed through
every operation.  Mutations of shared objects are translated to value-level
updates that reproduce the heap result of the original code, and every
operation returns the boolean the JavaScript function returns.  Persistence is
modelled by a `stored` field holding the decrypted view of the blob; backend
writes are modelled as succeeding (the `memory` backend literally returns
`true` without writing, and a healthy `file` backend writes and returns
`true`).  Timestamps (`new Date().toISOString()`, `Date.now()`) are passed in
as parameters.  JavaScript truthiness on the optional fields is modelled
explicitly: a missing value, `null`, the empty string and `0` are all falsy.
-/

namespace Dilial

/-- One stored account record, as built by `addAccount` in
`components/accounts.js`.  The `profile` blob is opaque to the store and is
modelled as an uninterpreted string. -/
structure Account where
  uuid : String
  username : String
  type : String
  accessToken : String
  clientToken : String
  refreshToken : Option String
  expiresAt : Option Int
  profile : Option String
  active : Bool
  lastUsed : String
deriving Repr, DecidableEq

/-- The module-level mutable state of `components/accounts.js`: the in-memory
account list, the `activeAccount` pointer, and the decrypted view of the
persisted blob. -/
structure StoreState where
  accounts : List Account
  activeAccount : Option Account
  stored : Option (List Account)
deriving Repr, DecidableEq

/-- Embeds `saveAccounts()`: re-encrypts the whole list and overwrites the blob.
Modelled as snapshotting `accounts` into `stored`; the write succeeds. -/
def saveAccounts (s : StoreState) : StoreState × Bool :=
  ({ s with stored := some s.accounts }, true)

/-- JavaScript `x || null` on an optional string: `undefined`, `null` and the
empty string all collapse to `null`. -/
def jsOrNullStr : Option String → Option String
  | some s => if s = "" then none else some s
  | none => none

/-- JavaScript `x || null` on an optional number: `undefined`, `null` and `0`
all collapse to `null`. -/
def jsOrNullInt : Option Int → Option Int
  | some n => if n = 0 then none else some n
  | none => none

/-- JavaScript truthiness of an optional string (`if (authData.x)`). -/
def truthyStr : Option String → Bool
  | some s => s != ""
  | none => false

/-- JavaScript truthiness of an optional number (`if (authData.x)`). -/
def truthyInt : Option Int → Bool
  | some n => n != 0
  | none => false

/-- The caller-supplied `authData` argument of `addAccount`.  A missing
`accessToken`, `clientToken` or `uuid` is modelled by the empty string, which
is exactly what the function's truthiness validation rejects. -/
structure AuthData where
  uuid : String
  username : String
  type : Option String
  accessToken : String
  clientToken : String
  refreshToken : Option String
  expiresAt : Option Int
  profile : Option String
deriving Repr, DecidableEq

/-- The `account` object literal built inside `addAccount`: fresh fields from
`authData`, `type` defaulting to `"mojang"`, optional fields defaulted to
`null` through `||`, `active = true`, `lastUsed` stamped with the current
time. -/
def mkAccount (authData : AuthData) (now : String) : Account :=
  { uuid := authData.uuid
    username := authData.username
    type := match authData.type with
      | some t => if t = "" then "mojang" else t
      | none => "mojang"
    accessToken := authData.accessToken
    clientToken := authData.clientToken
    refreshToken := jsOrNullStr authData.refreshToken
    expiresAt := jsOrNullInt authData.expiresAt
    profile := jsOrNullStr authData.profile
    active := true
    lastUsed := now }

/-- Embeds `addAccount(authData)` on an initialized store: validates the required
fields, then either replaces the record at the existing index of the same
`uuid`, or deactivates every record and appends; the new record becomes the
`activeAccount` pointer and the list is persisted. -/
def addAccount (s : StoreState) (authData : AuthData) (now : String) :
    StoreState × Bool :=
  if authData.accessToken = "" ∨ authData.clientToken = "" ∨ authData.uuid = "" then
    (s, false)
  else
    let account := mkAccount authData now
    match s.accounts.findIdx? (fun acc => acc.uuid == authData.uuid) with
    | some i =>
        saveAccounts { s with
          accounts := s.accounts.set i account
          activeAccount := some account }
    | none =>
        saveAccounts { s with
          accounts := s.accounts.map (fun acc => { acc with active := false }) ++ [account]
          activeAccount := some account }

/-- Embeds `removeAccount(uuid)` on an initialized store: filters the list; if
nothing was removed returns `false` without saving; if the removed uuid was
the active pointer's uuid, promotes the first remaining record (mutating its
`active` flag) or clears the pointer; persists and returns the save result. -/
def removeAccount (s : StoreState) (uuid : String) : StoreState × Bool :=
  let remaining := s.accounts.filter (fun acc => acc.uuid != uuid)
  if remaining.length = s.accounts.length then
    (s, false)
  else
    match s.activeAccount with
    | some act =>
        if act.uuid == uuid then
          match remaining with
          | [] => saveAccounts { s with accounts := [], activeAccount := none }
          | a :: rest =>
              saveAccounts { s with
                accounts := { a with active := true } :: rest
                activeAccount := some { a with active := true } }
        else
          saveAccounts { s with accounts := remaining }
    | none => saveAccounts { s with accounts := remaining }

/-- The safe projection returned by `getAccounts` / `getActiveAccount`:
exactly the fields `uuid`, `username`, `type`, `active`, `lastUsed` and no
token material. -/
structure SafeAccount where
  uuid : String
  username : String
  type : String
  active : Bool
  lastUsed : String
deriving Repr, DecidableEq

/-- The per-record object literal of `getAccounts`. -/
def toSafeAccount (acc : Account) : SafeAccount :=
  { uuid := acc.uuid
    username := acc.username
    type := acc.type
    active := acc.active
    lastUsed := acc.lastUsed }

/-- Embeds `getAccounts()` on an initialized store. -/
def getAccounts (s : StoreState) : List SafeAccount :=
  s.accounts.map toSafeAccount

/-- Embeds `getActiveAccount()` on an initialized store. -/
def getActiveAccount (s : StoreState) : Option SafeAccount :=
  s.activeAccount.map toSafeAccount

/-- Embeds `setActiveAccount(uuid)` on an initialized store: `false` if the uuid is
absent; otherwise every record's `active` flag becomes `uuid` equality (which
also mutates the found record, so the pointer receives the activated value)
and the list is persisted. -/
def setActiveAccount (s : StoreState) (uuid : String) : StoreState × Bool :=
  match s.accounts.find? (fun acc => acc.uuid == uuid) with
  | none => (s, false)
  | some account =>
      saveAccounts { s with
        accounts := s.accounts.map (fun acc => { acc with active := acc.uuid == uuid })
        activeAccount := some { account with active := true } }

/-- The full secret-bearing record returned by `getAuthData`. -/
structure FullAuthData where
  accessToken : String
  clientToken : String
  uuid : String
  username : String
  refreshToken : Option String
  expiresAt : Option Int
  profile : Option String
  type : String
deriving Repr, DecidableEq

/-- The object literal of `getAuthData`. -/
def toFullAuthData (acc : Account) : FullAuthData :=
  { accessToken := acc.accessToken
    clientToken := acc.clientToken
    uuid := acc.uuid
    username := acc.username
    refreshToken := acc.refreshToken
    expiresAt := acc.expiresAt
    profile := acc.profile
    type := acc.type }

/-- Embeds `getAuthData(uuid)` on an initialized store: a truthy `uuid` selects the
first record with that uuid, otherwise the active pointer is used. -/
def getAuthData (s : StoreState) (uuid : Option String) : Option FullAuthData :=
  let account := match uuid with
    | some u => if u = "" then s.activeAccount
                else s.accounts.find? (fun acc => acc.uuid == u)
    | none => s.activeAccount
  account.map toFullAuthData

/-- The `authData` partial argument of `updateAuthData`: each field may be
absent, and a present value may still be falsy. -/
structure AuthUpdate where
  accessToken : Option String := none
  refreshToken : Option String := none
  expiresAt : Option Int := none
  profile : Option String := none
deriving Repr, DecidableEq

/-- The in-place field mutations of `updateAuthData` on the found record: a
field is overwritten only when the supplied value is truthy, and `lastUsed`
is always stamped. -/
def applyUpdate (acc : Account) (u : AuthUpdate) (now : String) : Account :=
  { acc with
    accessToken := if truthyStr u.accessToken then u.accessToken.getD acc.accessToken
                   else acc.accessToken
    refreshToken := if truthyStr u.refreshToken then u.refreshToken
                    else acc.refreshToken
    expiresAt := if truthyInt u.expiresAt then u.expiresAt
                 else acc.expiresAt
    profile := if truthyStr u.profile then u.profile
               else acc.profile
    lastUsed := now }

/-- Replaces the first element satisfying `p` by its image under `f`; `none`
when no element matches (mirrors mutation through `findIndex`). -/
def updateFirst (p : Account → Bool) (f : Account → Account) :
    List Account → Option (List Account)
  | [] => none
  | a :: rest =>
      if p a then some (f a :: rest)
      else (updateFirst p f rest).map (fun l => a :: l)

/-- Embeds `updateAuthData(uuid, authData)` on an initialized store: `false` if the
uuid is absent; otherwise mutates the first matching record through
`applyUpdate`, refreshes the active pointer when it has the same uuid, and
persists. -/
def updateAuthData (s : StoreState) (uuid : String) (u : AuthUpdate)
    (now : String) : StoreState × Bool :=
  match s.accounts.find? (fun acc => acc.uuid == uuid) with
  | none => (s, false)
  | some acc0 =>
      let accounts :=
        (updateFirst (fun acc => acc.uuid == uuid) (fun acc => applyUpdate acc u now)
          s.accounts).getD s.accounts
      let act := match s.activeAccount with
        | some act => if act.uuid == uuid then some (applyUpdate acc0 u now) else some act
        | none => none
      saveAccounts { s with accounts := accounts, activeAccount := act }

/-- Outcome of reading and decrypting the persisted blob during
initialization: no blob, a blob that fails `decrypt`/`JSON.parse`, or a blob
decoding to an account list. -/
inductive BlobRead where
  | absent
  | corrupt
  | ok (accounts : List Account)
deriving Repr, DecidableEq

/-- Embeds `initializeAccountStorage()` from the point where the key is available
and the blob has been read: a decodable blob populates the list and sets the
pointer to the first record flagged active; a corrupt blob resets to an empty
list, clears the pointer and persists the empty list; an absent blob writes
the empty list.  All three branches mark the store initialized and return
`true`. -/
def initializeAccountStorage (blob : BlobRead) : StoreState × Bool :=
  match blob with
  | .ok accts =>
      ({ accounts := accts
         activeAccount := accts.find? (fun acc => acc.active)
         stored := some accts }, true)
  | .corrupt =>
      ((saveAccounts { accounts := [], activeAccount := none, stored := none }).1, true)
  | .absent =>
      ((saveAccounts { accounts := [], activeAccount := none, stored := none }).1, true)

/-! Embedding of `components/auth.js`.  Each `fetch` to a provider endpoint
is modelled by a pre-supplied response in an environment record, and every
function additionally returns the ordered list of endpoints it actually
contacted, so "no network call" and "hop never attempted" are statable. -/

/-- The provider endpoints contacted by `components/auth.js`. -/
inductive Endpoint where
  | msAuth
  | xbl
  | xsts
  | minecraft
  | profile
  | mojangValidate
deriving Repr, DecidableEq

/-- Response of the Microsoft token endpoint (hop 1). -/
structure MsTokenResponse where
  ok : Bool
  status : Nat
  access_token : String
  refresh_token : String
  expires_in : Int
deriving Repr, DecidableEq

/-- Response of the Xbox Live user-token endpoint (hop 2): `Token` and the
`DisplayClaims.xui[0].uhs` claim. -/
structure XblResponse where
  ok : Bool
  status : Nat
  token : String
  uhs : String
deriving Repr, DecidableEq

/-- Response of the XSTS endpoint (hop 3); on failure the error body may
carry an `XErr` code. -/
structure XstsResponse where
  ok : Bool
  status : Nat
  xerr : Option Int
  token : String
deriving Repr, DecidableEq

/-- Response of the Minecraft login endpoint (hop 4). -/
structure McResponse where
  ok : Bool
  status : Nat
  access_token : String
deriving Repr, DecidableEq

/-- Response of the Minecraft profile endpoint; `raw` stands for the opaque
profile JSON stored in the account record. -/
structure ProfileResponse where
  ok : Bool
  status : Nat
  id : String
  name : String
  raw : String
deriving Repr, DecidableEq

/-- The network environment of one Microsoft authentication attempt. -/
structure MsEnv where
  tokenResp : MsTokenResponse
  xblResp : XblResponse
  xstsResp : XstsResponse
  mcResp : McResponse
  profileResp : ProfileResponse
deriving Repr, DecidableEq

/-- The distinct failure conditions thrown by `microsoftAuthenticateWithCode`
and `refreshMicrosoftToken`; `noXboxAccount` is the dedicated message thrown
on XSTS error code 2148916233 ("The Microsoft account does not have an Xbox
account", the spec's `NoLinkedAccount`), `noEntitlement` the dedicated 404
message of the profile fetch ("You need to buy Minecraft to continue"). -/
inductive MsError where
  | missingCodeOrRedirect
  | missingClientId
  | tokenFailed (status : Nat)
  | xblFailed (status : Nat)
  | noXboxAccount
  | xstsFailed (status : Nat)
  | minecraftFailed (status : Nat)
  | noEntitlement
  | profileFailed (status : Nat)
  | saveFailed
  | noRefreshToken
  | updateFailed
deriving Repr, DecidableEq

/-- Embeds `microsoftAuthenticateWithCode(code, redirectUri)`: the four-hop exchange
plus profile fetch, composing an account record handed to `addAccount`.
`clientId` models `process.env.MS_CLIENT_ID` (absent = empty string),
`newClientToken` the generated `uuidv4()`, `now` the `Date.now()` value and
`nowIso` the `addAccount` timestamp. -/
def microsoftAuthenticateWithCode (env : MsEnv) (code redirectUri clientId : String)
    (newClientToken : String) (now : Int) (nowIso : String) (s : StoreState) :
    Except MsError (StoreState × AuthData) × List Endpoint :=
  if code = "" ∨ redirectUri = "" then (.error .missingCodeOrRedirect, [])
  else if clientId = "" then (.error .missingClientId, [])
  else if !env.tokenResp.ok then
    (.error (.tokenFailed env.tokenResp.status), [.msAuth])
  else if !env.xblResp.ok then
    (.error (.xblFailed env.xblResp.status), [.msAuth, .xbl])
  else if !env.xstsResp.ok then
    if env.xstsResp.xerr = some 2148916233 then
      (.error .noXboxAccount, [.msAuth, .xbl, .xsts])
    else
      (.error (.xstsFailed env.xstsResp.status), [.msAuth, .xbl, .xsts])
  else if !env.mcResp.ok then
    (.error (.minecraftFailed env.mcResp.status), [.msAuth, .xbl, .xsts, .minecraft])
  else if !env.profileResp.ok then
    if env.profileResp.status = 404 then
      (.error .noEntitlement, [.msAuth, .xbl, .xsts, .minecraft, .profile])
    else
      (.error (.profileFailed env.profileResp.status),
        [.msAuth, .xbl, .xsts, .minecraft, .profile])
  else
    let authData : AuthData :=
      { accessToken := env.mcResp.access_token
        clientToken := newClientToken
        refreshToken := some env.tokenResp.refresh_token
        expiresAt := some (now + env.tokenResp.expires_in * 1000)
        uuid := env.profileResp.id
        username := env.profileResp.name
        profile := some env.profileResp.raw
        type := some "microsoft" }
    let (s2, added) := addAccount s authData nowIso
    if !added then (.error .saveFailed, [.msAuth, .xbl, .xsts, .minecraft, .profile])
    else (.ok (s2, authData), [.msAuth, .xbl, .xsts, .minecraft, .profile])

/-- Embeds `refreshMicrosoftToken(uuid)`: requires a stored record with a truthy
refresh token, repeats hops 1 (refresh-token grant) through 4 without the
profile fetch, and hands only the new access token, refresh token and expiry
to `updateAuthData`; resolves with `getAuthData(uuid)` on the updated
store. -/
def refreshMicrosoftToken (env : MsEnv) (clientId : String) (now : Int)
    (nowIso : String) (s : StoreState) (uuid : String) :
    Except MsError (StoreState × Option FullAuthData) × List Endpoint :=
  match getAuthData s (some uuid) with
  | none => (.error .noRefreshToken, [])
  | some ad =>
    if !truthyStr ad.refreshToken then (.error .noRefreshToken, [])
    else if clientId = "" then (.error .missingClientId, [])
    else if !env.tokenResp.ok then
      (.error (.tokenFailed env.tokenResp.status), [.msAuth])
    else if !env.xblResp.ok then
      (.error (.xblFailed env.xblResp.status), [.msAuth, .xbl])
    else if !env.xstsResp.ok then
      (.error (.xstsFailed env.xstsResp.status), [.msAuth, .xbl, .xsts])
    else if !env.mcResp.ok then
      (.error (.minecraftFailed env.mcResp.status), [.msAuth, .xbl, .xsts, .minecraft])
    else
      let u : AuthUpdate :=
        { accessToken := some env.mcResp.access_token
          refreshToken := some env.tokenResp.refresh_token
          expiresAt := some (now + env.tokenResp.expires_in * 1000)
          profile := none }
      let (s2, updated) := updateAuthData s uuid u nowIso
      if !updated then (.error .updateFailed, [.msAuth, .xbl, .xsts, .minecraft])
      else (.ok (s2, getAuthData s2 (some uuid)), [.msAuth, .xbl, .xsts, .minecraft])

/-- JavaScript truthiness-guarded freshness test
`authData.expiresAt && authData.expiresAt > Date.now()`. -/
def expiryFresh (expiresAt : Option Int) (now : Int) : Bool :=
  match expiresAt with
  | some e => e != 0 && decide (e > now)
  | none => false

/-- Embeds `validateToken(uuid)`: resolves the record (active one when `uuid` is
falsy); for `microsoft` accounts a fresh expiry is valid with no network
call, otherwise validity is success of the refresh path; for any other type
a Mojang validate call is made and validity is exactly status 204
(`mojangStatus` models that response's status). -/
def validateToken (env : MsEnv) (clientId : String) (now : Int) (nowIso : String)
    (mojangStatus : Nat) (s : StoreState) (uuid : Option String) :
    Bool × StoreState × List Endpoint :=
  match getAuthData s uuid with
  | none => (false, s, [])
  | some ad =>
    if ad.type = "microsoft" then
      if expiryFresh ad.expiresAt now then (true, s, [])
      else
        match refreshMicrosoftToken env clientId now nowIso s ad.uuid with
        | (.ok (s2, _), trace) => (true, s2, trace)
        | (.error _, trace) => (false, s, trace)
    else
      (mojangStatus = 204, s, [.mojangValidate])

/-! Embedding of the crypto envelope (`encrypt` / `decrypt` in
`components/accounts.js`).  Bytes are `Nat` values below 256; hex strings are
modelled as lists of hex-digit values (the character table of the `hex`
encoding is a fixed bijection on 0..15, so nothing is lost). -/

/-- Modelled from the spec: the keystream of Node's `crypto` AES-256-GCM
cipher (`createCipheriv`), which encrypts by XOR-ing the plaintext with a
stream determined by the key and the IV.  The concrete mixing function below
stands in for AES; every theorem about the envelope holds for an arbitrary
keystream function. -/
def keystreamByte (key iv : List Nat) (i : Nat) : Nat :=
  (key.foldl (fun h b => (h * 131 + b) % 65521) 7 +
   iv.foldl (fun h b => (h * 137 + b) % 65521) 11 + i * 31) % 256

/-- CTR-mode XOR of a byte stream against the keystream, starting at counter
`i` (the encryption and decryption direction of GCM are the same XOR). -/
def ctrXor (key iv : List Nat) : Nat → List Nat → List Nat
  | _, [] => []
  | i, b :: rest => (b ^^^ keystreamByte key iv i) :: ctrXor key iv (i + 1) rest

/-- Modelled from the spec: the 16-byte authentication tag of Node's
AES-256-GCM cipher (`getAuthTag`), a function of the key, the IV and the
ciphertext. -/
def gcmTag (key iv ct : List Nat) : List Nat :=
  let h := (key ++ iv ++ ct).foldl (fun h b => (h * 257 + b + 1) % 4294967291) 5
  (List.range 16).map (fun i => (h + i * 101) % 256)

/-- One hex-encoded byte: the two hex-digit values of `Buffer.toString('hex')`. -/
def toHexPair (b : Nat) : List Nat := [b / 16, b % 16]

/-- Embeds `Buffer.toString('hex')`: hex-digit values of a byte list. -/
def bytesToHexDigits (bs : List Nat) : List Nat := (bs.map toHexPair).flatten

/-- Embeds `Buffer.from(hex, 'hex')`: byte list from hex-digit values. -/
def hexDigitsToBytes : List Nat → List Nat
  | h :: l :: rest => (h * 16 + l) :: hexDigitsToBytes rest
  | _ => []

/-- The serialized `{iv, encrypted, authTag}` JSON envelope written by
`encrypt`; the three fields are hex strings. -/
structure Envelope where
  iv : List Nat
  encrypted : List Nat
  authTag : List Nat
deriving Repr, DecidableEq

/-- Embeds `encrypt(text)` with the process encryption key and the 16 random IV
bytes drawn by `crypto.randomBytes(16)` passed explicitly: encrypts with
AES-256-GCM and returns the hex-field envelope. -/
def encrypt (encryptionKey iv : List Nat) (text : List Nat) : Envelope :=
  let ct := ctrXor encryptionKey iv 0 text
  { iv := bytesToHexDigits iv
    encrypted := bytesToHexDigits ct
    authTag := bytesToHexDigits (gcmTag encryptionKey iv ct) }

/-- Embeds `decrypt(encryptedJson)`: decodes the hex fields, verifies the
authentication tag (`setAuthTag` + `final` throw on mismatch, modelled as
`none`) and returns the decrypted plaintext. -/
def decrypt (encryptionKey : List Nat) (env : Envelope) : Option (List Nat) :=
  let iv := hexDigitsToBytes env.iv
  let ct := hexDigitsToBytes env.encrypted
  let tag := hexDigitsToBytes env.authTag
  if gcmTag encryptionKey iv ct = tag then some (ctrXor encryptionKey iv 0 ct)
  else none

/-! Concrete scenario used by the replacement-semantics claims: the spec's
`addAccount(A)`, `addAccount(B)`, `addAccount(A')` with `A'.uuid = A.uuid`. -/

/-- Account `A` of the replacement scenario. -/
def authA : AuthData :=
  { uuid := "uuid-a", username := "alice", type := some "mojang"
    accessToken := "tokA", clientToken := "ctA"
    refreshToken := none, expiresAt := none, profile := none }

/-- Account `B` of the replacement scenario. -/
def authB : AuthData :=
  { uuid := "uuid-b", username := "bob", type := some "mojang"
    accessToken := "tokB", clientToken := "ctB"
    refreshToken := none, expiresAt := none, profile := none }

/-- Account `A'` of the replacement scenario: same `uuid` as `A`, fresh
fields. -/
def authA2 : AuthData :=
  { uuid := "uuid-a", username := "alice-two", type := some "mojang"
    accessToken := "tokA2", clientToken := "ctA2"
    refreshToken := none, expiresAt := none, profile := none }

/-- The freshly initialized empty store. -/
def emptyStore : StoreState := (initializeAccountStorage .absent).1

/-- The store after `addAccount(A)`, `addAccount(B)`, `addAccount(A')`. -/
def storeAfterReplace : StoreState :=
  (addAccount (addAccount (addAccount emptyStore authA "t1").1 authB "t2").1
    authA2 "t3").1

/-! Helper lemmas shared by several contracts. -/

/-- Value of `find?` on a list whose first match is the middle element. -/
theorem find_first_middle (p : Account → Bool) (l1 : List Account) (a : Account)
    (l2 : List Account) (h1 : ∀ x ∈ l1, p x = false) (ha : p a = true) :
    (l1 ++ a :: l2).find? p = some a := by
  induction l1 with
  | nil => simp [List.find?_cons_of_pos, ha]
  | cons x xs ih =>
      have hx : p x = false := h1 x (List.mem_cons_self x xs)
      simpa [List.find?_cons_of_neg, hx] using
        ih (fun y hy => h1 y (List.mem_cons_of_mem x hy))

/-- Lemma: `updateFirst` rewrites exactly the middle element when nothing before it
matches. -/
theorem updateFirst_middle (p : Account → Bool) (f : Account → Account)
    (l1 : List Account) (a : Account) (l2 : List Account)
    (h1 : ∀ x ∈ l1, p x = false) (ha : p a = true) :
    updateFirst p f (l1 ++ a :: l2) = some (l1 ++ f a :: l2) := by
  induction l1 with
  | nil => simp [updateFirst, ha]
  | cons x xs ih =>
      have hx : p x = false := h1 x (List.mem_cons_self x xs)
      simp [updateFirst, hx,
        ih (fun y hy => h1 y (List.mem_cons_of_mem x hy))]

/-- Lemma: `filter` drops exactly the middle element when it is the only failure. -/
theorem filter_drops_middle (p : Account → Bool) (l1 : List Account) (a : Account)
    (l2 : List Account) (h1 : ∀ x ∈ l1, p x = true) (ha : p a = false)
    (h2 : ∀ x ∈ l2, p x = true) :
    (l1 ++ a :: l2).filter p = l1 ++ l2 := by
  rw [List.filter_append, List.filter_cons_of_neg (by simp [ha]),
    List.filter_eq_self.mpr h1, List.filter_eq_self.mpr h2]

/-- C1 (code evaluation): the invariant fails on the code.  Starting from the
freshly initialized empty store, `addAccount(A)`, `addAccount(B)`,
`addAccount(A')` with `A'.uuid = A.uuid` leaves both stored records with
`active = true`: the replace branch of `addAccount` does not deactivate the
other records, so two accounts are active at once. -/
theorem addAccount_replace_two_active :
    storeAfterReplace.accounts.map (fun a => a.active) = [true, true] ∧
    (storeAfterReplace.accounts.filter (fun a => a.active)).length = 2 :=
  ⟨rfl, rfl⟩

/-- C2 (code evaluation): in the replacement scenario the store does hold
exactly 2 accounts, the first holds `A'`'s fields and is active — but `B` is
still active as well, contradicting the claim's "B is inactive". -/
theorem addAccount_replace_scenario_eval :
    storeAfterReplace.accounts.length = 2 ∧
    storeAfterReplace.accounts.map
        (fun a => (a.uuid, a.username, a.accessToken, a.clientToken, a.active)) =
      [("uuid-a", "alice-two", "tokA2", "ctA2", true),
       ("uuid-b", "bob", "tokB", "ctB", true)] :=
  ⟨rfl, rfl⟩

/-- C9: when the stored blob is present but fails decryption or parsing,
initialization resets to an empty account list with no active account,
persists the empty list, and still reports success. -/
theorem initialize_corrupt_resets :
    initializeAccountStorage .corrupt =
      ({ accounts := [], activeAccount := none, stored := some [] }, true) := rfl

/-- Rewrites the three secret fields of every record of a state (both the
list and the active pointer) by arbitrary functions; listing-style reads
cannot distinguish such states. -/
def scrubSecrets (f g : Account → String) (h : Account → Option String)
    (s : StoreState) : StoreState :=
  { accounts := s.accounts.map
      (fun a => { a with accessToken := f a, clientToken := g a, refreshToken := h a })
    activeAccount := s.activeAccount.map
      (fun a => { a with accessToken := f a, clientToken := g a, refreshToken := h a })
    stored := s.stored }

/-- C7: `getAccounts` returns, in store order, exactly the five-field safe
projection of every record, and `getActiveAccount` the safe projection of the
active record; both reads are invariant under arbitrary rewriting of the
secrets `accessToken`, `clientToken` and `refreshToken`, so no secret
material reaches a listing-style read. -/
theorem listing_reads_secret_free (s : StoreState) (f g : Account → String)
    (h : Account → Option String) :
    getAccounts s = s.accounts.map toSafeAccount ∧
    getActiveAccount s = s.activeAccount.map toSafeAccount ∧
    getAccounts (scrubSecrets f g h s) = getAccounts s ∧
    getActiveAccount (scrubSecrets f g h s) = getActiveAccount s := by
  refine ⟨rfl, rfl, ?_, ?_⟩
  · simp [getAccounts, scrubSecrets, toSafeAccount]
  · cases hs : s.activeAccount <;> simp [getActiveAccount, scrubSecrets, toSafeAccount, hs]

/-- Hex encoding round-trips: decoding the hex digits of a byte list returns
the byte list. -/
theorem hex_roundtrip (bs : List Nat) : hexDigitsToBytes (bytesToHexDigits bs) = bs := by
  induction bs with
  | nil => rfl
  | cons b rest ih =>
      simp [bytesToHexDigits, toHexPair, hexDigitsToBytes] at ih ⊢
      constructor
      · omega
      · exact ih

/-- The CTR XOR stream is an involution at every counter offset. -/
theorem ctrXor_involution (key iv : List Nat) (i : Nat) (l : List Nat) :
    ctrXor key iv i (ctrXor key iv i l) = l := by
  induction l generalizing i with
  | nil => rfl
  | cons b rest ih =>
      simp [ctrXor, ih, Nat.xor_assoc, Nat.xor_self, Nat.xor_zero]

/-- C8: the crypto envelope round-trips: for every plaintext byte string and
every 32-byte key (and the 16 fresh IV bytes drawn inside `encrypt`),
decrypting the envelope produced by `encrypt` verifies the authentication tag
and returns the original plaintext. -/
theorem encrypt_decrypt_roundtrip (key iv text : List Nat)
    (hkey : key.length = 32) (hiv : iv.length = 16)
    (hbytes : ∀ b ∈ text, b < 256) :
    decrypt key (encrypt key iv text) = some text := by
  simp [decrypt, encrypt, hex_roundtrip, ctrXor_involution]

/-- Witness for the round-trip at a concrete key, IV and plaintext. -/
theorem encrypt_decrypt_roundtrip_witness :
    decrypt (List.replicate 32 7) (encrypt (List.replicate 32 7)
      (List.replicate 16 3) [104, 105, 33]) = some [104, 105, 33] :=
  encrypt_decrypt_roundtrip (List.replicate 32 7) (List.replicate 16 3)
    [104, 105, 33] (by decide) (by decide) (by decide)

/-- C3: when hops 1 and 2 succeed and the XSTS request fails with error code
`XErr = 2148916233`, the exchange stops at hop 3: the caller receives the
dedicated no-linked-account condition (not a generic status error), and
neither the Minecraft token endpoint nor the profile endpoint is ever
contacted. -/
theorem xsts_noLinkedAccount_short_circuit
    (env : MsEnv) (code redirectUri clientId newClientToken : String)
    (now : Int) (nowIso : String) (s : StoreState)
    (hcode : code ≠ "") (hred : redirectUri ≠ "") (hcid : clientId ≠ "")
    (h1 : env.tokenResp.ok = true) (h2 : env.xblResp.ok = true)
    (h3 : env.xstsResp.ok = false) (hx : env.xstsResp.xerr = some 2148916233) :
    microsoftAuthenticateWithCode env code redirectUri clientId newClientToken
        now nowIso s
      = (.error .noXboxAccount, [.msAuth, .xbl, .xsts]) ∧
    Endpoint.minecraft ∉ (microsoftAuthenticateWithCode env code redirectUri
        clientId newClientToken now nowIso s).2 ∧
    Endpoint.profile ∉ (microsoftAuthenticateWithCode env code redirectUri
        clientId newClientToken now nowIso s).2 := by
  have heq : microsoftAuthenticateWithCode env code redirectUri clientId
      newClientToken now nowIso s = (.error .noXboxAccount, [.msAuth, .xbl, .xsts]) := by
    simp [microsoftAuthenticateWithCode, hcode, hred, hcid, h1, h2, h3, hx]
  refine ⟨heq, ?_, ?_⟩ <;> rw [heq] <;> decide

/-- A network environment in which hops 1 and 2 succeed and the XSTS hop
fails with the "account not linked" error code. -/
def envNoXbox : MsEnv :=
  { tokenResp := { ok := true, status := 200, access_token := "msat"
                   refresh_token := "msrt", expires_in := 3600 }
    xblResp := { ok := true, status := 200, token := "xbltok", uhs := "uhs1" }
    xstsResp := { ok := false, status := 401, xerr := some 2148916233, token := "" }
    mcResp := { ok := true, status := 200, access_token := "mcat" }
    profileResp := { ok := true, status := 200, id := "pid", name := "pname"
                     raw := "profile-json" } }

/-- Witness: the short-circuit at a concrete environment and store. -/
theorem xsts_noLinkedAccount_short_circuit_witness :
    microsoftAuthenticateWithCode envNoXbox "code1" "https://cb" "cid" "ct1"
        1000 "t0" emptyStore
      = (.error .noXboxAccount, [.msAuth, .xbl, .xsts]) ∧
    Endpoint.minecraft ∉ (microsoftAuthenticateWithCode envNoXbox "code1"
        "https://cb" "cid" "ct1" 1000 "t0" emptyStore).2 ∧
    Endpoint.profile ∉ (microsoftAuthenticateWithCode envNoXbox "code1"
        "https://cb" "cid" "ct1" 1000 "t0" emptyStore).2 :=
  xsts_noLinkedAccount_short_circuit envNoXbox "code1" "https://cb" "cid" "ct1"
    1000 "t0" emptyStore (by decide) (by decide) (by decide) rfl rfl rfl rfl

/-- C10: `updateAuthData` applies a field only when its supplied value is
truthy: a field given as absent, the empty string or `0` leaves the stored
field unchanged (no field can be cleared through `updateAuthData`), while the
call still stamps `lastUsed`, leaves every other record and every other field
of the matching record unchanged, and reports success for any stored uuid. -/
theorem updateAuthData_truthy_only
    (s : StoreState) (uuid : String) (u : AuthUpdate) (now : String)
    (l1 l2 : List Account) (a : Account)
    (hacc : s.accounts = l1 ++ a :: l2)
    (hl1 : ∀ x ∈ l1, x.uuid ≠ uuid) (ha : a.uuid = uuid) :
    (updateAuthData s uuid u now).2 = true ∧
    ∃ a2, (updateAuthData s uuid u now).1.accounts = l1 ++ a2 :: l2 ∧
      a2.lastUsed = now ∧
      (u.accessToken = none ∨ u.accessToken = some "" →
        a2.accessToken = a.accessToken) ∧
      (u.refreshToken = none ∨ u.refreshToken = some "" →
        a2.refreshToken = a.refreshToken) ∧
      (u.expiresAt = none ∨ u.expiresAt = some 0 → a2.expiresAt = a.expiresAt) ∧
      (u.profile = none ∨ u.profile = some "" → a2.profile = a.profile) ∧
      a2.uuid = a.uuid ∧ a2.username = a.username ∧
      a2.clientToken = a.clientToken ∧ a2.active = a.active := by
  have hfind : s.accounts.find? (fun acc => acc.uuid == uuid) = some a := by
    rw [hacc]
    exact find_first_middle _ l1 a l2
      (fun x hx => by simpa using hl1 x hx) (by simpa using ha)
  have hupd : updateFirst (fun acc => acc.uuid == uuid)
      (fun acc => applyUpdate acc u now) s.accounts
        = some (l1 ++ applyUpdate a u now :: l2) := by
    rw [hacc]
    exact updateFirst_middle _ _ l1 a l2
      (fun x hx => by simpa using hl1 x hx) (by simpa using ha)
  refine ⟨?_, applyUpdate a u now, ?_, ?_, ?_, ?_, ?_, ?_, ?_, ?_, ?_, ?_⟩
  · simp [updateAuthData, hfind, saveAccounts]
  · simp [updateAuthData, hfind, hupd, saveAccounts]
  · simp [applyUpdate]
  · rintro (h | h) <;> simp [applyUpdate, h, truthyStr]
  · rintro (h | h) <;> simp [applyUpdate, h, truthyStr]
  · rintro (h | h) <;> simp [applyUpdate, h, truthyInt]
  · rintro (h | h) <;> simp [applyUpdate, h, truthyStr]
  · simp [applyUpdate]
  · simp [applyUpdate]
  · simp [applyUpdate]
  · simp [applyUpdate]

/-- A one-account store holding a Microsoft account, used as a concrete
fixture. -/
def msAccount : Account :=
  { uuid := "ms-uuid", username := "msuser", type := "microsoft"
    accessToken := "mstok", clientToken := "msct"
    refreshToken := some "msrt", expiresAt := some 5000
    profile := some "blob", active := true, lastUsed := "t0" }

/-- The fixture store containing exactly `msAccount`, which is active. -/
def msStore : StoreState :=
  { accounts := [msAccount], activeAccount := some msAccount
    stored := some [msAccount] }

/-- Witness: updating `msAccount` with all-falsy values changes no stored
credential field, stamps `lastUsed` and succeeds. -/
theorem updateAuthData_truthy_only_witness :
    (updateAuthData msStore "ms-uuid"
      { accessToken := some "", refreshToken := none
        expiresAt := some 0, profile := none } "t9").2 = true ∧
    ∃ a2, (updateAuthData msStore "ms-uuid"
        { accessToken := some "", refreshToken := none
          expiresAt := some 0, profile := none } "t9").1.accounts = [] ++ a2 :: [] ∧
      a2.lastUsed = "t9" ∧
      ((some "" : Option String) = none ∨ (some "" : Option String) = some "" →
        a2.accessToken = msAccount.accessToken) ∧
      ((none : Option String) = none ∨ (none : Option String) = some "" →
        a2.refreshToken = msAccount.refreshToken) ∧
      ((some 0 : Option Int) = none ∨ (some 0 : Option Int) = some 0 →
        a2.expiresAt = msAccount.expiresAt) ∧
      ((none : Option String) = none ∨ (none : Option String) = some "" →
        a2.profile = msAccount.profile) ∧
      a2.uuid = msAccount.uuid ∧ a2.username = msAccount.username ∧
      a2.clientToken = msAccount.clientToken ∧ a2.active = msAccount.active :=
  updateAuthData_truthy_only msStore "ms-uuid"
    { accessToken := some "", refreshToken := none
      expiresAt := some 0, profile := none } "t9" [] [] msAccount rfl
    (by simp) rfl

/-- C4: the `removeAccount` contract.  For a uuid held by no record the call
returns `false` and the store is untouched.  For a store whose records are
`l1 ++ a :: l2` with `a` the unique holder of the uuid, the call returns
`true` and removes exactly `a`; when the removed record was not the active
pointer (or there was none) the remaining records and the pointer are
unchanged; when it was the active pointer, the first remaining record in list
order is promoted to active (or the pointer is cleared when nothing
remains). -/
theorem removeAccount_contract :
    (∀ (s : StoreState) (uuid : String),
        (∀ x ∈ s.accounts, x.uuid ≠ uuid) → removeAccount s uuid = (s, false)) ∧
    (∀ (s : StoreState) (uuid : String) (l1 : List Account) (a : Account)
        (l2 : List Account),
        s.accounts = l1 ++ a :: l2 → a.uuid = uuid →
        (∀ x ∈ l1 ++ l2, x.uuid ≠ uuid) →
        (removeAccount s uuid).2 = true ∧
        (∀ act, s.activeAccount = some act → act.uuid ≠ uuid →
            (removeAccount s uuid).1.accounts = l1 ++ l2 ∧
            (removeAccount s uuid).1.activeAccount = some act) ∧
        (s.activeAccount = none →
            (removeAccount s uuid).1.accounts = l1 ++ l2 ∧
            (removeAccount s uuid).1.activeAccount = none) ∧
        (∀ act, s.activeAccount = some act → act.uuid = uuid → l1 ++ l2 = [] →
            (removeAccount s uuid).1.accounts = [] ∧
            (removeAccount s uuid).1.activeAccount = none) ∧
        (∀ act h0 t, s.activeAccount = some act → act.uuid = uuid →
            l1 ++ l2 = h0 :: t →
            (removeAccount s uuid).1.accounts = { h0 with active := true } :: t ∧
            (removeAccount s uuid).1.activeAccount
              = some { h0 with active := true })) := by
  constructor
  · intro s uuid hall
    have hrem : s.accounts.filter (fun acc => acc.uuid != uuid) = s.accounts :=
      List.filter_eq_self.mpr (fun x hx => by simpa using hall x hx)
    simp [removeAccount, hrem]
  · intro s uuid l1 a l2 hacc ha hrest
    have hrem : s.accounts.filter (fun acc => acc.uuid != uuid) = l1 ++ l2 := by
      rw [hacc]
      exact filter_drops_middle _ l1 a l2
        (fun x hx => by simpa using hrest x (List.mem_append_left _ hx))
        (by simp [ha])
        (fun x hx => by simpa using hrest x (List.mem_append_right _ hx))
    have hlen : ¬ ((l1 ++ l2).length = s.accounts.length) := by
      rw [hacc]
      simp only [List.length_append, List.length_cons]
      omega
    have hstep : removeAccount s uuid =
        match s.activeAccount with
        | some act =>
            if act.uuid == uuid then
              match l1 ++ l2 with
              | [] => saveAccounts { s with accounts := [], activeAccount := none }
              | a0 :: rest =>
                  saveAccounts { s with
                    accounts := { a0 with active := true } :: rest
                    activeAccount := some { a0 with active := true } }
            else saveAccounts { s with accounts := l1 ++ l2 }
        | none => saveAccounts { s with accounts := l1 ++ l2 } := by
      unfold removeAccount
      simp only [hrem]
      rw [if_neg hlen]
    refine ⟨?_, ?_, ?_, ?_, ?_⟩
    · rw [hstep]
      rcases s.activeAccount with _ | act
      · rfl
      · dsimp only
        by_cases hu : (act.uuid == uuid) = true
        · rw [if_pos hu]
          cases hll : l1 ++ l2 <;> rfl
        · rw [if_neg hu]; rfl
    · intro act hao hu
      rw [hstep, hao]
      simp [hu, saveAccounts]
    · intro hao
      rw [hstep, hao]
      simp [saveAccounts]
    · intro act hao hu hll
      rw [hstep, hao]
      simp [hu, hll, saveAccounts]
    · intro act h0 t hao hu hll
      rw [hstep, hao]
      simp [hu, hll, saveAccounts]

/-- A second fixture account (mojang) for removal scenarios. -/
def mjAccount : Account :=
  { uuid := "mj-uuid", username := "mjuser", type := "mojang"
    accessToken := "mjtok", clientToken := "mjct"
    refreshToken := none, expiresAt := none
    profile := none, active := false, lastUsed := "t1" }

/-- A two-account fixture store in which `msAccount` is active and
`mjAccount` is the first record in list order after it. -/
def twoStore : StoreState :=
  { accounts := [msAccount, mjAccount], activeAccount := some msAccount
    stored := some [msAccount, mjAccount] }

/-- Witness: removal of an absent uuid is a `false` no-op, and removing the
active `msAccount` from the two-account store promotes `mjAccount`. -/
theorem removeAccount_contract_witness :
    removeAccount twoStore "ghost-uuid" = (twoStore, false) ∧
    ((removeAccount twoStore "ms-uuid").2 = true ∧
      (removeAccount twoStore "ms-uuid").1.accounts
        = { mjAccount with active := true } :: [] ∧
      (removeAccount twoStore "ms-uuid").1.activeAccount
        = some { mjAccount with active := true }) := by
  refine ⟨removeAccount_contract.1 twoStore "ghost-uuid" (by decide), ?_, ?_, ?_⟩
  · exact (removeAccount_contract.2 twoStore "ms-uuid" [] msAccount [mjAccount]
      rfl rfl (by decide)).1
  · exact ((removeAccount_contract.2 twoStore "ms-uuid" [] msAccount [mjAccount]
      rfl rfl (by decide)).2.2.2.2 msAccount mjAccount [] rfl rfl rfl).1
  · exact ((removeAccount_contract.2 twoStore "ms-uuid" [] msAccount [mjAccount]
      rfl rfl (by decide)).2.2.2.2 msAccount mjAccount [] rfl rfl rfl).2

/-- A network environment in which all four refresh hops succeed with fresh
truthy token material. -/
def envAllOk : MsEnv :=
  { tokenResp := { ok := true, status := 200, access_token := "newmsat"
                   refresh_token := "newmsrt", expires_in := 3600 }
    xblResp := { ok := true, status := 200, token := "xbltok", uhs := "uhs1" }
    xstsResp := { ok := true, status := 200, xerr := none, token := "xststok" }
    mcResp := { ok := true, status := 200, access_token := "newmctok" }
    profileResp := { ok := true, status := 200, id := "pid", name := "pname"
                     raw := "profile-json" } }

/-- C5: a successful `refreshMicrosoftToken` updates only the `accessToken`,
`refreshToken` and `expiresAt` fields of the stored record with that uuid and
stamps `lastUsed`; the record's `username`, `profile`, `clientToken`, `type`
and `active` flag, and every other record in the store (`l1` and `l2`), are
left unchanged. -/
theorem refreshMicrosoftToken_frame
    (env : MsEnv) (clientId : String) (now : Int) (nowIso : String)
    (s : StoreState) (uuid : String) (l1 l2 : List Account) (a : Account)
    (rt : String)
    (huuid : uuid ≠ "")
    (hacc : s.accounts = l1 ++ a :: l2)
    (hl1 : ∀ x ∈ l1, x.uuid ≠ uuid) (ha : a.uuid = uuid)
    (htype : a.type = "microsoft")
    (hrt : a.refreshToken = some rt) (hrtne : rt ≠ "")
    (hcid : clientId ≠ "")
    (h1 : env.tokenResp.ok = true) (h2 : env.xblResp.ok = true)
    (h3 : env.xstsResp.ok = true) (h4 : env.mcResp.ok = true)
    (hat : env.mcResp.access_token ≠ "")
    (hrt2 : env.tokenResp.refresh_token ≠ "")
    (hexp : now + env.tokenResp.expires_in * 1000 ≠ 0) :
    ∃ s2 r,
      refreshMicrosoftToken env clientId now nowIso s uuid
        = (.ok (s2, r), [.msAuth, .xbl, .xsts, .minecraft]) ∧
      s2.accounts = l1 ++
        { a with
          accessToken := env.mcResp.access_token,
          refreshToken := some env.tokenResp.refresh_token,
          expiresAt := some (now + env.tokenResp.expires_in * 1000),
          lastUsed := nowIso } :: l2 := by
  have hfind : s.accounts.find? (fun acc => acc.uuid == uuid) = some a := by
    rw [hacc]
    exact find_first_middle _ l1 a l2
      (fun x hx => by simpa using hl1 x hx) (by simpa using ha)
  have hga : getAuthData s (some uuid) = some (toFullAuthData a) := by
    simp [getAuthData, huuid, hfind]
  have hupdFirst : updateFirst (fun acc => acc.uuid == uuid)
      (fun acc => applyUpdate acc
        { accessToken := some env.mcResp.access_token
          refreshToken := some env.tokenResp.refresh_token
          expiresAt := some (now + env.tokenResp.expires_in * 1000)
          profile := none } nowIso) s.accounts
      = some (l1 ++ applyUpdate a
          { accessToken := some env.mcResp.access_token
            refreshToken := some env.tokenResp.refresh_token
            expiresAt := some (now + env.tokenResp.expires_in * 1000)
            profile := none } nowIso :: l2) := by
    rw [hacc]
    exact updateFirst_middle _ _ l1 a l2
      (fun x hx => by simpa using hl1 x hx) (by simpa using ha)
  have happly : applyUpdate a
      { accessToken := some env.mcResp.access_token
        refreshToken := some env.tokenResp.refresh_token
        expiresAt := some (now + env.tokenResp.expires_in * 1000)
        profile := none } nowIso
      = { a with
            accessToken := env.mcResp.access_token,
            refreshToken := some env.tokenResp.refresh_token,
            expiresAt := some (now + env.tokenResp.expires_in * 1000),
            lastUsed := nowIso } := by
    simp [applyUpdate, truthyStr, truthyInt, hat, hrt2, hexp]
  have hsnd : (updateAuthData s uuid
      { accessToken := some env.mcResp.access_token
        refreshToken := some env.tokenResp.refresh_token
        expiresAt := some (now + env.tokenResp.expires_in * 1000)
        profile := none } nowIso).2 = true := by
    simp [updateAuthData, hfind, saveAccounts]
  have hfst : (updateAuthData s uuid
      { accessToken := some env.mcResp.access_token
        refreshToken := some env.tokenResp.refresh_token
        expiresAt := some (now + env.tokenResp.expires_in * 1000)
        profile := none } nowIso).1.accounts
      = l1 ++
        { a with
            accessToken := env.mcResp.access_token,
            refreshToken := some env.tokenResp.refresh_token,
            expiresAt := some (now + env.tokenResp.expires_in * 1000),
            lastUsed := nowIso } :: l2 := by
    simp [updateAuthData, hfind, hupdFirst, saveAccounts, happly]
  rcases hpair : updateAuthData s uuid
      { accessToken := some env.mcResp.access_token
        refreshToken := some env.tokenResp.refresh_token
        expiresAt := some (now + env.tokenResp.expires_in * 1000)
        profile := none } nowIso with ⟨s2, b⟩
  have hb : b = true := by rw [hpair] at hsnd; exact hsnd
  subst hb
  rw [hpair] at hfst
  refine ⟨s2, getAuthData s2 (some uuid), ?_, hfst⟩
  simp [refreshMicrosoftToken, hga, toFullAuthData, hrt, truthyStr, hrtne,
    hcid, h1, h2, h3, h4, hpair]

/-- Witness: refreshing the Microsoft fixture account against an all-success
environment rewrites exactly the token triple plus `lastUsed`. -/
theorem refreshMicrosoftToken_frame_witness :
    ∃ s2 r,
      refreshMicrosoftToken envAllOk "cid" 1000 "t9" msStore "ms-uuid"
        = (.ok (s2, r), [.msAuth, .xbl, .xsts, .minecraft]) ∧
      s2.accounts = [] ++
        { msAccount with
          accessToken := envAllOk.mcResp.access_token,
          refreshToken := some envAllOk.tokenResp.refresh_token,
          expiresAt := some (1000 + envAllOk.tokenResp.expires_in * 1000),
          lastUsed := "t9" } :: [] :=
  refreshMicrosoftToken_frame envAllOk "cid" 1000 "t9" msStore "ms-uuid"
    [] [] msAccount "msrt" (by decide) rfl (by simp) rfl rfl rfl (by decide)
    (by decide) rfl rfl rfl rfl (by decide) (by decide) (by decide)

/-- C6: the `validateToken` contract.  For a `microsoft` record whose
`expiresAt` lies strictly in the future of the (non-negative) clock, the call
is valid with no network call and no state change; for a `microsoft` record
whose expiry is absent or not in the future, the call is valid exactly when
the refresh path succeeds; for a `mojang` record the provider validate
endpoint is contacted and the call is valid exactly on status 204. -/
theorem validateToken_contract
    (env : MsEnv) (clientId : String) (now : Int) (nowIso : String)
    (mojangStatus : Nat) (s : StoreState) (uuid : Option String)
    (ad : FullAuthData) (h : getAuthData s uuid = some ad) (hnow : 0 ≤ now) :
    (∀ e : Int, ad.type = "microsoft" → ad.expiresAt = some e → now < e →
        validateToken env clientId now nowIso mojangStatus s uuid
          = (true, s, [])) ∧
    (ad.type = "microsoft" → expiryFresh ad.expiresAt now = false →
        ((validateToken env clientId now nowIso mojangStatus s uuid).1 = true ↔
          ∃ s2 r, (refreshMicrosoftToken env clientId now nowIso s ad.uuid).1
            = .ok (s2, r))) ∧
    (ad.type = "mojang" →
        validateToken env clientId now nowIso mojangStatus s uuid
          = (decide (mojangStatus = 204), s, [.mojangValidate])) := by
  refine ⟨?_, ?_, ?_⟩
  · intro e ht he hlt
    have hef : expiryFresh ad.expiresAt now = true := by
      rw [he]
      simp only [expiryFresh, Bool.and_eq_true, bne_iff_ne, ne_eq,
        decide_eq_true_eq]
      omega
    simp [validateToken, h, ht, hef]
  · intro ht hef
    have hstep : validateToken env clientId now nowIso mojangStatus s uuid
        = (match refreshMicrosoftToken env clientId now nowIso s ad.uuid with
           | (.ok (s2, _), trace) => (true, s2, trace)
           | (.error _, trace) => (false, s, trace)) := by
      simp [validateToken, h, ht, hef]
    rw [hstep]
    rcases hr : refreshMicrosoftToken env clientId now nowIso s ad.uuid
      with ⟨res, trace⟩
    rcases res with err | ⟨s2, r⟩
    · simp [hr]
    · simp [hr]
  · intro ht
    have hms : ¬ (ad.type = "microsoft") := by rw [ht]; decide
    simp [validateToken, h, hms]

/-- Witness for the `validateToken` contract at the Microsoft fixture store
(the fixture expiry 5000 is in the future of the clock 1000). -/
theorem validateToken_contract_witness :
    (∀ e : Int, (toFullAuthData msAccount).type = "microsoft" →
        (toFullAuthData msAccount).expiresAt = some e → 1000 < e →
        validateToken envAllOk "cid" 1000 "t9" 204 msStore none
          = (true, msStore, [])) ∧
    ((toFullAuthData msAccount).type = "microsoft" →
        expiryFresh (toFullAuthData msAccount).expiresAt 1000 = false →
        ((validateToken envAllOk "cid" 1000 "t9" 204 msStore none).1 = true ↔
          ∃ s2 r, (refreshMicrosoftToken envAllOk "cid" 1000 "t9" msStore
              (toFullAuthData msAccount).uuid).1 = .ok (s2, r))) ∧
    ((toFullAuthData msAccount).type = "mojang" →
        validateToken envAllOk "cid" 1000 "t9" 204 msStore none
          = (decide ((204 : Nat) = 204), msStore, [.mojangValidate])) :=
  validateToken_contract envAllOk "cid" 1000 "t9" 204 msStore none
    (toFullAuthData msAccount) rfl (by decide)

end Dilial
